import Mathlib

/-!
# Verification of the HARK one-stage consumption-saving solver

Shallow embedding of `HARK/ConsumptionSaving/ConsIndShockModel_AgentSolve.py`:
the perfect-foresight stage solver, the income-shock setup, and the basic
endogenous-gridpoints (EGM) solver, together with the diagnostic
`check_conditions` machinery.

All numeric code is embedded polymorphically over a `LinearOrderedField α`
so that every definition is executable (witnesses instantiate `α := ℚ`,
which models the source's float arithmetic without rounding), while theorems
about irrational quantities (the CRRA power `(R·βℓ)^(1/ρ)`) instantiate
`α := ℝ` with real exponentiation passed in for the source's `**` operator.
-/

namespace HARK

variable {α : Type} [LinearOrderedField α]

/-- Modelled from the spec: the external 1-D linear interpolator
(`HARK.interpolation.LinearInterp`), which the spec treats as a black box
with "pointwise value and derivative evaluation, extrapolation behavior"
assumed.  `seg p q` is the affine function through the two points `p` and
`q` (in `(x, y)` form). -/
def seg (p q : α × α) (x : α) : α :=
  p.2 + (q.2 - p.2) * (x - p.1) / (q.1 - p.1)

/-- Modelled from the spec: piecewise-linear interpolation through a list of
`(x, y)` points, extended linearly beyond the first and last gridpoints by
the boundary segments. -/
def linInterp : List (α × α) → α → α
  | [], _ => 0
  | [p], _ => p.2
  | [p, q], x => seg p q x
  | p :: q :: r :: rest, x =>
    if x ≤ q.1 then seg p q x else linInterp (q :: r :: rest) x

/-- The x-coordinates of a point list are strictly increasing. -/
abbrev SortedX (pts : List (α × α)) : Prop :=
  List.Chain' (fun p q : α × α => p.1 < q.1) pts

/-- The y-coordinates of a point list are non-decreasing. -/
abbrev MonoY (pts : List (α × α)) : Prop :=
  List.Chain' (fun p q : α × α => p.2 ≤ q.2) pts

theorem seg_at_left (p q : α × α) : seg p q p.1 = p.2 := by
  simp [seg]

theorem seg_at_right (p q : α × α) (h : p.1 ≠ q.1) : seg p q q.1 = q.2 := by
  have hne : q.1 - p.1 ≠ 0 := sub_ne_zero.mpr (Ne.symm h)
  field_simp [seg]

theorem seg_mono (p q : α × α) (h1 : p.1 < q.1) (h2 : p.2 ≤ q.2) :
    Monotone (seg p q) := by
  intro a b hab
  have hd : (0 : α) < q.1 - p.1 := sub_pos.mpr h1
  have hnum : (q.2 - p.2) * (a - p.1) ≤ (q.2 - p.2) * (b - p.1) :=
    mul_le_mul_of_nonneg_left (by linarith) (by linarith)
  have hdiv : (q.2 - p.2) * (a - p.1) / (q.1 - p.1) ≤
      (q.2 - p.2) * (b - p.1) / (q.1 - p.1) := (div_le_div_iff_of_pos_right hd).mpr hnum
  exact add_le_add_left hdiv p.2

theorem linInterp_at_head (p : α × α) (tail : List (α × α))
    (hs : SortedX (p :: tail)) : linInterp (p :: tail) p.1 = p.2 := by
  match tail with
  | [] => simp [linInterp]
  | [q] => simpa [linInterp] using seg_at_left p q
  | q :: r :: rest =>
    have hpq : p.1 < q.1 := (List.chain'_cons.mp hs).1
    simp only [linInterp, if_pos (le_of_lt hpq)]
    exact seg_at_left p q

theorem linInterp_mono (pts : List (α × α)) (hx : SortedX pts) (hy : MonoY pts) :
    Monotone (linInterp pts) := by
  match pts with
  | [] => intro a b _; simp [linInterp]
  | [p] => intro a b _; simp [linInterp]
  | [p, q] =>
    have h1 : p.1 < q.1 := (List.chain'_cons.mp hx).1
    have h2 : p.2 ≤ q.2 := (List.chain'_cons.mp hy).1
    simpa [linInterp] using seg_mono p q h1 h2
  | p :: q :: r :: rest =>
    have hx2 : SortedX (q :: r :: rest) := (List.chain'_cons.mp hx).2
    have hy2 : MonoY (q :: r :: rest) := (List.chain'_cons.mp hy).2
    have hpq : p.1 < q.1 := (List.chain'_cons.mp hx).1
    have hpq2 : p.2 ≤ q.2 := (List.chain'_cons.mp hy).1
    have hqr : q.1 < r.1 := (List.chain'_cons.mp hx2).1
    have ih : Monotone (linInterp (q :: r :: rest)) := linInterp_mono _ hx2 hy2
    have hglue : linInterp (q :: r :: rest) q.1 = q.2 := linInterp_at_head q _ hx2
    have hsm : Monotone (seg p q) := seg_mono p q hpq hpq2
    intro a b hab
    by_cases ha : a ≤ q.1 <;> by_cases hb : b ≤ q.1
    · simpa [linInterp, if_pos ha, if_pos hb] using hsm hab
    · have h1 : linInterp (p :: q :: r :: rest) a = seg p q a := by
        simp [linInterp, if_pos ha]
      have h2 : linInterp (p :: q :: r :: rest) b = linInterp (q :: r :: rest) b := by
        simp [linInterp, if_neg hb]
      rw [h1, h2]
      calc seg p q a ≤ seg p q q.1 := hsm ha
        _ = q.2 := seg_at_right p q (ne_of_lt hpq)
        _ = linInterp (q :: r :: rest) q.1 := hglue.symm
        _ ≤ linInterp (q :: r :: rest) b := ih (le_of_lt (lt_of_not_le hb))
    · exact absurd (le_trans hab hb) ha
    · simpa [linInterp, if_neg ha, if_neg hb] using ih hab

/-! ## Borrowing constraints

Two places in the source compute the effective borrowing constraint:
`build_recursive_facts` evaluates the expression
`BoroCnstNat if (BoroCnstArt == None) else (BoroCnstArt if BoroCnstNat <
BoroCnstArt else BoroCnstNat)`, and `make_cFunc_PF` substitutes `-np.inf`
for a missing artificial constraint and takes
`BoroCnst = max(BoroCnstArt, BoroCnstNat)`. -/

/-- `bilt.BoroCnst` as computed by
`ConsPerfForesightSolverEOP.build_recursive_facts`. -/
def boroCnstEffective (BoroCnstArt : Option α) (BoroCnstNat : α) : α :=
  match BoroCnstArt with
  | none => BoroCnstNat
  | some a => if BoroCnstNat < a then a else BoroCnstNat

/-- `BoroCnst` as computed inside
`ConsPerfForesightSolverEOP.make_cFunc_PF`; the source replaces a missing
artificial constraint by `-np.inf`, and `max (-inf) x = x` on reals, which
the `none` branch encodes. -/
def boroCnstMakeCFuncPF (BoroCnstArt : Option α) (BoroCnstNat : α) : α :=
  match BoroCnstArt with
  | none => BoroCnstNat
  | some a => max a BoroCnstNat

/-! ## The basic EGM solver

`ConsIndShockSolverBasicEOP`: `add_Post_Choice_Value` computes the
expectation, over the discretized income-shock distribution, of discounted
next-period value and its first two derivatives at each end-of-period asset
gridpoint; `make_sol_using_EGM` inverts the first-derivative row through
the marginal-utility inverse and builds interpolation source points. -/

/-- One outcome of the discretized joint income-shock distribution:
a joint probability, a permanent-shock value and a transitory-shock value
(the source's broadcast arrays `ShkPrbs`, `permShkValsBcst`,
`tranShkValsBcst`, indexed by outcome). -/
structure ShockDraw (α : Type) where
  prob : α
  perm : α
  tran : α

/-- Modelled from the spec: the external expectation operator
(`HARK.distribution.calc_expectation_of_array`), "the ability to take an
expectation of an arbitrary function over a collection of support points
and probabilities": the probability-weighted sum of `f` over the outcomes. -/
def calcExpectation (shocks : List (ShockDraw α)) (f : ShockDraw α → α) : α :=
  (shocks.map (fun s => s.prob * f s)).sum

/-- Next-period market resources reached from end-of-period assets `a`
under shock draw `s`: the source's transition equations
`RNrm = Rfree / (PermGroFac * permShk)`, `bNrm = aNrm * RNrm`,
`mNrm = bNrm + tranShk` (`xfer_crnt_post_to_next_ante`, evaluated by
`next_ante_states`). -/
def nextMNrm (Rfree PermGroFac : α) (s : ShockDraw α) (a : α) : α :=
  Rfree / (PermGroFac * s.perm) * a + s.tran

/-- The first-derivative integrand `v_1` of `v_post_choice_t` in
`add_Post_Choice_Value`:
`PermGro ** (1-CRRA_tp1-1) * vFunc_tp1.dm(mNrm_tp1) * Rfree * DiscLiv`
with `PermGro = permShk * PermGroFac`.  The source's real power `**` is
passed in as `pw`. -/
def vPostChoiceD1Integrand (pw : α → α → α) (DiscLiv Rfree PermGroFac CRRA_tp1 : α)
    (vPtp1 : α → α) (s : ShockDraw α) (a : α) : α :=
  pw (s.perm * PermGroFac) (1 - CRRA_tp1 - 1) *
    vPtp1 (nextMNrm Rfree PermGroFac s a) * Rfree * DiscLiv

/-- Row `[1]` of `E_t.v_post_choice_t`: the expected first derivative of
post-choice value with respect to end-of-period assets, as a function of
the asset gridpoint. -/
def vPostChoiceD1 (pw : α → α → α) (DiscLiv Rfree PermGroFac CRRA_tp1 : α)
    (vPtp1 : α → α) (shocks : List (ShockDraw α)) (a : α) : α :=
  calcExpectation shocks
    (fun s => vPostChoiceD1Integrand pw DiscLiv Rfree PermGroFac CRRA_tp1 vPtp1 s a)

/-- `ConsIndShockSolverBasicEOP.get_source_points_via_EGM`:
`cNrm = u.dc.Nvrs(EndOfPrdvP)`, `mNrm = cNrm + aNrm`, then the synthetic
anchor `c = 0` at `m = BoroCnstNat` is inserted at position 0 of both
arrays.  Returns `(c_for_interpolation, m_for_interpolation)`. -/
def getSourcePointsViaEGM (uPinv : α → α) (BoroCnstNat : α)
    (EndOfPrdvP aNrm : List α) : List α × List α :=
  let cNrm := EndOfPrdvP.map uPinv
  let mNrm := List.zipWith (· + ·) cNrm aNrm
  ((0 : α) :: cNrm, BoroCnstNat :: mNrm)

/-- `ConsIndShockSolverBasicEOP.make_linear_cFunc`: linear interpolation
through the source points (the limiting intercept and slope it passes to
`LinearInterp` govern extrapolation, which the interpolator model treats
as continuation of the boundary segments). -/
def makeLinearCFunc (mNrm cNrm : List α) : α → α :=
  linInterp (mNrm.zip cNrm)

/-- Modelled from the spec: the external `HARK.interpolation.LowerEnvelope`,
the "pointwise-minimum combinator" of two functions. -/
def lowerEnvelope (f g : α → α) (m : α) : α :=
  min (f m) (g m)

/-- Modelled from the spec: the external
`HARK.interpolation.MargValueFuncCRRA`, "the derivative of
consumption-implied utility": `m ↦ u'(cFunc(m))`. -/
def margValueFuncCRRA (uP : α → α) (cFunc : α → α) (m : α) : α :=
  uP (cFunc m)

/-- The parts of the stage solution record built by
`use_points_for_interpolation`: the consumption function, the marginal
value function `vFunc.dm`, the marginal marginal value function
`vFunc.dm.dm`, and the minimum market resources. -/
structure EGMStageSolution (α : Type) where
  cFunc : α → α
  vFuncDm : α → α
  vFuncDmDm : α → α
  mNrmMin : α

/-- `ConsIndShockSolverBasicEOP.use_points_for_interpolation`: builds the
unconstrained consumption function with the supplied interpolator; when an
artificial borrowing constraint is configured, combines it with the
constrained segment `LinearInterp([mNrmMin, mNrmMin+1], [0, 1])` through
`LowerEnvelope`; then defines `vFunc.dm = MargValueFuncCRRA(cFunc, CRRA)`
from the combined `cFunc`, and `vFunc.dm.dm` from `bilt.cFunc` (the
field as it stands on the solution object). -/
def usePointsForInterpolation (uP uPP : α → α) (BoroCnstArt : Option α)
    (mNrmMin : α) (biltCFunc : α → α)
    (interpolator : List α → List α → (α → α))
    (cNrm mNrm : List α) : EGMStageSolution α :=
  let cFuncUnc := interpolator mNrm cNrm
  let cFunc :=
    match BoroCnstArt with
    | none => cFuncUnc
    | some _ =>
      lowerEnvelope cFuncUnc (linInterp [(mNrmMin, (0 : α)), (mNrmMin + 1, 1)])
  { cFunc := cFunc
    vFuncDm := margValueFuncCRRA uP cFunc
    vFuncDmDm := fun m => uPP (biltCFunc m)
    mNrmMin := mNrmMin }

/-- `ConsIndShockSolverBasicEOP.interpolating_EGM_solution`: EGM source
points, then interpolation. -/
def interpolatingEGMSolution (uP uPP uPinv : α → α) (BoroCnstArt : Option α)
    (mNrmMin BoroCnstNat : α) (biltCFunc : α → α)
    (interpolator : List α → List α → (α → α))
    (EndOfPrdvP aNrmGrid : List α) : EGMStageSolution α :=
  let sp := getSourcePointsViaEGM uPinv BoroCnstNat EndOfPrdvP aNrmGrid
  usePointsForInterpolation uP uPP BoroCnstArt mNrmMin biltCFunc interpolator
    sp.1 sp.2

/-- `ConsIndShockSolverBasicEOP.make_sol_using_EGM` (linear branch):
feeds `E_t.v_post_choice_t[1]` evaluated on `bilt.aNrmGrid` into the EGM
inversion and interpolation pipeline. -/
def makeSolUsingEGM (pw : α → α → α) (uP uPP uPinv : α → α)
    (DiscLiv Rfree PermGroFac CRRA_tp1 : α) (vPtp1 : α → α)
    (shocks : List (ShockDraw α)) (BoroCnstArt : Option α)
    (mNrmMin BoroCnstNat : α) (biltCFunc : α → α)
    (aNrmGrid : List α) : EGMStageSolution α :=
  let EndOfPrdvP :=
    aNrmGrid.map (vPostChoiceD1 pw DiscLiv Rfree PermGroFac CRRA_tp1 vPtp1 shocks)
  interpolatingEGMSolution uP uPP uPinv BoroCnstArt mNrmMin BoroCnstNat biltCFunc
    makeLinearCFunc EndOfPrdvP aNrmGrid

/-! ## The perfect-foresight consumption function

`ConsPerfForesightSolverEOP.make_cFunc_PF`, final grid assembly: the grid
starts at the point `(BoroCnst, 0)`, continues through the kink points,
and appends an extrapolation point one unit beyond the last kink with
slope `MPCmin`:

    mNrmGrid = np.append([BoroCnst], mNrm_kinks)
    cNrmGrid = np.append(0., cNrm_kinks)
    mNrmGrid = np.append(mNrmGrid, mNrmGrid[-1]+1)
    cNrmGrid = np.append(cNrmGrid, cNrmGrid[-1]+MPCmin)
    cFunc = LinearInterp(mNrmGrid, cNrmGrid)
-/

/-- The final interpolation grid of `make_cFunc_PF` as `(m, c)` pairs. -/
def makeCFuncPFGrid (BoroCnst MPCmin : α) (kinks : List (α × α)) :
    List (α × α) :=
  let pts := (BoroCnst, (0 : α)) :: kinks
  let lastp := pts.getLast (List.cons_ne_nil _ _)
  pts ++ [(lastp.1 + 1, lastp.2 + MPCmin)]

/-- The perfect-foresight consumption function returned by
`make_cFunc_PF`. -/
def cFuncPF (BoroCnst MPCmin : α) (kinks : List (α × α)) : α → α :=
  linInterp (makeCFuncPFGrid BoroCnst MPCmin kinks)

/-! ## Infinite-horizon facts

`ConsPerfForesightSolverEOP.build_infhor_facts_from_params` evaluates, in
order, the expressions
`APF = ((Rfree * DiscLiv) ** (1.0 / CRRA))` with `DiscLiv = DiscFac*LivPrb`,
`RPF = APF / Rfree`, `GPFRaw = APF / PermGroFac`,
`GPFLiv = APF * LivPrb / PermGroFac`, `FHWF = PermGroFac / Rfree`,
`hNrmInf = 1/(1-FHWF) if (FHWF < 1) else float("inf")`, and
`FVAF = LivPrb * DiscLiv`. -/

/-- Exogenous scalar parameters of a perfect-foresight stage
(`pars`, populated from `parameters_solver`). -/
structure PFPars (α : Type) where
  CRRA : α
  Rfree : α
  DiscFac : α
  LivPrb : α
  PermGroFac : α
  BoroCnstArt : Option α

/-- `pars.DiscLiv = DiscFac * LivPrb`. -/
def DiscLivOf (p : PFPars α) : α := p.DiscFac * p.LivPrb

/-- `bilt.APF`; the source's float power `**` is passed in as `pw`. -/
def APF (pw : α → α → α) (p : PFPars α) : α :=
  pw (p.Rfree * DiscLivOf p) (1 / p.CRRA)

/-- `bilt.RPF = APF / Rfree`. -/
def RPF (pw : α → α → α) (p : PFPars α) : α := APF pw p / p.Rfree

/-- `bilt.GPFRaw = APF / PermGroFac`. -/
def GPFRaw (pw : α → α → α) (p : PFPars α) : α := APF pw p / p.PermGroFac

/-- `bilt.GPFLiv = APF * LivPrb / PermGroFac`. -/
def GPFLiv (pw : α → α → α) (p : PFPars α) : α :=
  APF pw p * p.LivPrb / p.PermGroFac

/-- `bilt.FHWF = PermGroFac / Rfree`. -/
def FHWF (p : PFPars α) : α := p.PermGroFac / p.Rfree

/-- `bilt.FVAF = LivPrb * DiscLiv`. -/
def FVAF (p : PFPars α) : α := p.LivPrb * DiscLivOf p

/-- The value stored in `bilt.hNrmInf` in the finite case `FHWF < 1`
(otherwise the source stores `float("inf")`). -/
def hNrmInfFinite (p : PFPars α) : α := 1 / (1 - FHWF p)

/-! ## Recursive facts

`ConsPerfForesightSolverEOP.build_recursive_facts` evaluates each formula
string with Python `eval` in the merged environment
`{**E_t.__dict__, **bilt.__dict__, **givens}` where
`givens = {**folw.__dict__, **pars.__dict__}` is captured once at
function entry.  The `folw` namespace holds the successor quantities
(renamed with the `_tp1` suffix); for a stage whose `solver_prep` ran the
terminal-pseudo early return, `folw` is empty.  The terminal kludges
behave differently per fact:

* `hNrm`: the kludge assigns `soln_crnt.hNrm_tp1 = -1.0`, an attribute of
  the solution object, which is **not** part of the evaluation
  environment, so the lookup of `hNrm_tp1` still goes to `folw`;
* first `MPCmax` block: likewise assigns `soln_crnt.MPCmax_tp1`, invisible
  to the evaluation environment;
* `MPCmin` and second `MPCmax` block: assign `bilt.MPCmin_tp1` /
  `bilt.MPCmax_tp1 = float('inf')`, which **is** seen (unless shadowed by
  a `folw` entry, since `givens` is merged after `bilt`); with a finite
  `RPF`, IEEE division gives `RPF / inf = 0`, hence the value `1.0`.

A name found in no namespace raises `NameError`, modelled as
`Except.error`. -/

/-- The evaluation environment of `build_recursive_facts`: the successor
(`folw`) entries that may or may not be present, the `pars` scalars, the
already-built `bilt.RPF`, and whether the stage's `stge_kind` is
`terminal_pseudo`. -/
structure RecFactsEnv (α : Type) where
  terminal : Bool
  hNrm_tp1 : Option α
  mNrmMin_tp1 : Option α
  MPCmin_tp1 : Option α
  MPCmax_tp1 : Option α
  tranShkMin : α
  permShkMin : α
  PermGroFac : α
  Rfree : α
  BoroCnstArt : Option α
  RPF : α

/-- The quantities `build_recursive_facts` stores on `bilt`, in the order
the source computes them. -/
structure RecFacts (α : Type) where
  hNrm : α
  BoroCnstNat : α
  BoroCnst : α
  MPCmax : α
  mNrmMin : α
  MPCmin : α

/-- `ConsPerfForesightSolverEOP.build_recursive_facts`, with Python's
dynamic name lookup made explicit.  Execution stops at the first
`NameError`, as `eval` raises immediately. -/
def buildRecursiveFacts (e : RecFactsEnv α) : Except String (RecFacts α) := do
  -- py___code = '((PermGroFac / Rfree) * (1.0 + hNrm_tp1))'
  -- terminal kludge writes soln_crnt.hNrm_tp1, not visible to eval
  let hNrm_tp1 ← match e.hNrm_tp1 with
    | some v => Except.ok v
    | none => Except.error "NameError: hNrm_tp1"
  let hNrm := (e.PermGroFac / e.Rfree) * (1 + hNrm_tp1)
  -- py___code = '(mNrmMin_tp1 - tranShkMin)*(PermGroFac/Rfree)*permShkMin',
  -- replaced by 'hNrm' in the terminal case
  let BoroCnstNat ←
    if e.terminal then Except.ok hNrm
    else match e.mNrmMin_tp1 with
      | some mm =>
        Except.ok ((mm - e.tranShkMin) * (e.PermGroFac / e.Rfree) * e.permShkMin)
      | none => Except.error "NameError: mNrmMin_tp1"
  let BoroCnst := boroCnstEffective e.BoroCnstArt BoroCnstNat
  -- first MPCmax block; terminal kludge writes soln_crnt.MPCmax_tp1,
  -- not visible to eval
  let _MPCmaxFirst ← match e.MPCmax_tp1 with
    | some v => Except.ok ((1 : α) / (1 + e.RPF / v))
    | none => Except.error "NameError: MPCmax_tp1"
  let mNrmMin := BoroCnst
  -- py___code = '1.0 / (1.0 + (RPF /MPCmin_tp1))'; terminal kludge writes
  -- bilt.MPCmin_tp1 = float('inf'), and RPF/inf = 0 in IEEE arithmetic
  let MPCmin ← match e.MPCmin_tp1 with
    | some v => Except.ok ((1 : α) / (1 + e.RPF / v))
    | none =>
      if e.terminal then Except.ok (1 : α)
      else Except.error "NameError: MPCmin_tp1"
  -- second MPCmax block; terminal kludge writes bilt.MPCmax_tp1 = inf
  let MPCmax ← match e.MPCmax_tp1 with
    | some v => Except.ok ((1 : α) / (1 + e.RPF / v))
    | none =>
      if e.terminal then Except.ok (1 : α)
      else Except.error "NameError: MPCmax_tp1"
  Except.ok
    { hNrm := hNrm, BoroCnstNat := BoroCnstNat, BoroCnst := BoroCnst,
      MPCmax := MPCmax, mNrmMin := mNrmMin, MPCmin := MPCmin }

/-- The `hNrm` recursion of `build_recursive_facts` in the ordinary
(non-terminal) case: `hNrm = (PermGroFac / Rfree) * (1.0 + hNrm_tp1)`. -/
def hNrmRecursive (p : PFPars α) (hNrm_tp1 : α) : α :=
  (p.PermGroFac / p.Rfree) * (1 + hNrm_tp1)

/-! ## Diagnostic conditions

`ConsumerSolutionOneStateCRRA.check_conditions` sets
`bilt.conditions = {}` and `bilt.degenerate = False`, then invokes (in
this order) `check_AIC`, `check_FHWC`, `check_RIC`, `check_GICRaw`,
`check_GICNrm`, `check_GICLiv`, `check_FVAC`.  `check_GICNrm` returns
early (storing nothing) when `stge.pars` has no `IncShkDstn`.
`check_WRIC` is defined on the class but is not invoked by
`check_conditions`.  Each `check_X` stores the pass/fail result of its
`test` on `stge.bilt.X` (the external `HARK.core.core_check_condition`
returns the test outcome and handles the explanatory messages).  Finally
the overall flag is computed:

    if hasattr(soln_crnt.bilt, "BoroCnstArt") \
            and soln_crnt.pars.BoroCnstArt is not None:
        soln_crnt.degenerate = not soln_crnt.bilt.RIC
    else:
        soln_crnt.degenerate = not soln_crnt.bilt.RIC or not soln_crnt.bilt.FHWC

and stored on the top-level `soln_crnt.degenerate` attribute (the
`bilt.degenerate` field set at entry is never reassigned).  Nothing in the
module ever sets a `BoroCnstArt` attribute on a `bilt` namespace (it lives
in `pars`), so `bilt_hasattr_BoroCnstArt` records the `hasattr` outcome. -/

/-- The factor values consulted by the condition checks, together with the
attribute-presence facts their guards test. -/
structure CondFactors (α : Type) where
  APF : α
  FHWF : α
  RPF : α
  GPFRaw : α
  GPFNrm : α
  GPFLiv : α
  FVAF : α
  WRPF : α
  hasIncShkDstn : Bool
  bilt_hasattr_BoroCnstArt : Bool
  BoroCnstArt : Option α

/-- The `(name, result)` pairs stored on `bilt` by the checks that
`check_conditions` invokes, in invocation order.  Check order and tests:
AIC: `APF < 1`; FHWC: `FHWF < 1`; RIC: `RPF < 1`; GICRaw: `GPFRaw < 1`;
GICNrm: `GPFNrm <= 1` (skipped without an income-shock distribution);
GICLiv: `GPFLiv < 1`; FVAC: `FVAF < 1`. -/
def conditionsStored (s : CondFactors α) : List (String × Prop) :=
  [("AIC", s.APF < 1), ("FHWC", s.FHWF < 1), ("RIC", s.RPF < 1),
    ("GICRaw", s.GPFRaw < 1)]
  ++ (if s.hasIncShkDstn then [("GICNrm", s.GPFNrm ≤ 1)] else [])
  ++ [("GICLiv", s.GPFLiv < 1), ("FVAC", s.FVAF < 1)]

/-- The observable state `check_conditions` leaves behind: the
`bilt.degenerate` field (assigned `False` at entry and never reassigned),
the top-level `degenerate` attribute, and the stored condition results. -/
structure CheckConditionsResult where
  biltDegenerate : Prop
  degenerate : Prop
  stored : List (String × Prop)

/-- `ConsumerSolutionOneStateCRRA.check_conditions`. -/
def checkConditions (s : CondFactors α) : CheckConditionsResult :=
  { biltDegenerate := False
    stored := conditionsStored s
    degenerate :=
      if s.bilt_hasattr_BoroCnstArt && s.BoroCnstArt.isSome
      then ¬ (s.RPF < 1)
      else ¬ (s.RPF < 1) ∨ ¬ (s.FHWF < 1) }

/-! ## Income-shock setup validation

`ConsIndShockSetupEOP.__init__` stores the marginal shock distributions and
asserts that each has probability-weighted mean (numpy `dot` of the
probability and value arrays) approximately equal to `1.0`:

    assert_approx_equal(E_dot(permShkPrbs, permShkVals), 1.0)
    ...
    assert_approx_equal(E_dot(tranShkPrbs, tranShkVals), 1.0)

A failed assertion raises `AssertionError`, aborting the constructor. -/

/-- A discretized marginal shock distribution: parallel arrays of support
values (`X`) and probabilities (`pmf`). -/
structure DiscreteDstn (α : Type) where
  vals : List α
  prbs : List α

/-- `numpy.dot` of two 1-D arrays. -/
def eDot (xs ys : List α) : α := (List.zipWith (· * ·) xs ys).sum

/-- Modelled from the spec: the external
`numpy.testing.assert_approx_equal`, a check that two floats agree "within
standard floating tolerance"; `tol` is its tolerance. -/
def assertApproxEqual (tol actual desired : α) : Except String Unit :=
  if |actual - desired| < tol then Except.ok () else Except.error "AssertionError"

/-- The mean-one validation performed by `ConsIndShockSetupEOP.__init__`:
the permanent-shock check runs first, then the transitory-shock check;
the first failure aborts setup. -/
def consIndShockSetupValidate (tol : α)
    (permShkDstn tranShkDstn : DiscreteDstn α) : Except String Unit := do
  let _ ← assertApproxEqual tol (eDot permShkDstn.prbs permShkDstn.vals) 1
  let _ ← assertApproxEqual tol (eDot tranShkDstn.prbs tranShkDstn.vals) 1
  Except.ok ()

/-! ## Theorems for the claims -/

/-- C1: in the basic EGM solver, consumption at every end-of-period asset
gridpoint is the marginal-utility derivative-inverse applied to the first
derivative of the post-choice expected value (`E_t.v_post_choice_t[1]`),
market resources at that gridpoint is that consumption plus the asset
gridpoint, and the synthetic point (market resources = borrowing
constraint, consumption = 0) is prepended as the first interpolation
point. -/
theorem claim_C1_egm_inversion (pw : α → α → α) (uPinv : α → α)
    (DiscLiv Rfree PermGroFac CRRA_tp1 : α) (vPtp1 : α → α)
    (shocks : List (ShockDraw α)) (BoroCnstNat : α) (aNrmGrid : List α) :
    getSourcePointsViaEGM uPinv BoroCnstNat
        (aNrmGrid.map
          (vPostChoiceD1 pw DiscLiv Rfree PermGroFac CRRA_tp1 vPtp1 shocks))
        aNrmGrid
      = ((0 : α) :: aNrmGrid.map (fun a =>
            uPinv (vPostChoiceD1 pw DiscLiv Rfree PermGroFac CRRA_tp1 vPtp1
              shocks a)),
         BoroCnstNat :: aNrmGrid.map (fun a =>
            uPinv (vPostChoiceD1 pw DiscLiv Rfree PermGroFac CRRA_tp1 vPtp1
              shocks a) + a)) := by
  simp only [getSourcePointsViaEGM, List.map_map, Function.comp_def,
    List.zipWith_map_left, List.zipWith_same]

/-- C2: every solution built by the basic EGM solver has its marginal value
function defined as marginal utility composed with the returned consumption
function: `vFunc.dm m = u'(cFunc m)` exactly, for every `m` and in both the
constrained and unconstrained branches. -/
theorem claim_C2_envelope_consistency (pw : α → α → α) (uP uPP uPinv : α → α)
    (DiscLiv Rfree PermGroFac CRRA_tp1 : α) (vPtp1 : α → α)
    (shocks : List (ShockDraw α)) (BoroCnstArt : Option α)
    (mNrmMin BoroCnstNat : α) (biltCFunc : α → α) (aNrmGrid : List α)
    (m : α) :
    (makeSolUsingEGM pw uP uPP uPinv DiscLiv Rfree PermGroFac CRRA_tp1 vPtp1
        shocks BoroCnstArt mNrmMin BoroCnstNat biltCFunc aNrmGrid).vFuncDm m
      = uP ((makeSolUsingEGM pw uP uPP uPinv DiscLiv Rfree PermGroFac CRRA_tp1
        vPtp1 shocks BoroCnstArt mNrmMin BoroCnstNat biltCFunc
        aNrmGrid).cFunc m) := rfl

/-- C9: the effective borrowing constraint equals the larger of the natural
and artificial constraints when an artificial constraint is configured, and
the natural constraint when it is `None` — in both places the source
computes it (`build_recursive_facts` and `make_cFunc_PF`). -/
theorem claim_C9_effective_constraint (BoroCnstNat a : α) :
    boroCnstEffective (some a) BoroCnstNat = max BoroCnstNat a
    ∧ boroCnstEffective (none : Option α) BoroCnstNat = BoroCnstNat
    ∧ boroCnstMakeCFuncPF (some a) BoroCnstNat = max BoroCnstNat a
    ∧ boroCnstMakeCFuncPF (none : Option α) BoroCnstNat = BoroCnstNat := by
  refine ⟨?_, rfl, ?_, rfl⟩
  · by_cases h : BoroCnstNat < a
    · simp [boroCnstEffective, h, max_eq_right h.le]
    · simp [boroCnstEffective, h, max_eq_left (not_lt.mp h)]
  · simp [boroCnstMakeCFuncPF, max_comm]

/-- C10: after `check_conditions` runs, `bilt.degenerate` is `False`
regardless of the RIC and FHWC outcomes; the flag computed from the
degenerate rule is stored on the top-level `degenerate` attribute only. -/
theorem claim_C10_bilt_degenerate_false (s : CondFactors α) :
    (checkConditions s).biltDegenerate = False
    ∧ ¬ (checkConditions s).biltDegenerate
    ∧ ((checkConditions s).degenerate ↔
        if s.bilt_hasattr_BoroCnstArt && s.BoroCnstArt.isSome
        then ¬ (s.RPF < 1)
        else ¬ (s.RPF < 1) ∨ ¬ (s.FHWF < 1)) :=
  ⟨rfl, fun h => h, Iff.rfl⟩

/-- C7 (amended): `check_conditions` stores a pass/fail result for AIC,
FHWC, RIC, GICRaw, GICLiv and FVAC on every stage, for GICNrm only when
the stage has an income-shock distribution, and never for WRIC (whose
checker exists on the class but is not invoked by `check_conditions`). -/
theorem claim_C7_conditions_stored (s : CondFactors α) :
    (conditionsStored s).map Prod.fst
      = (if s.hasIncShkDstn
         then ["AIC", "FHWC", "RIC", "GICRaw", "GICNrm", "GICLiv", "FVAC"]
         else ["AIC", "FHWC", "RIC", "GICRaw", "GICLiv", "FVAC"])
    ∧ "WRIC" ∉ (conditionsStored s).map Prod.fst := by
  cases h : s.hasIncShkDstn <;>
    refine ⟨?_, ?_⟩ <;> simp [conditionsStored, h]

/-- A stage with an income-shock distribution, at which `check_conditions`
nevertheless stores no WRIC result. -/
def condFactorsWithShocks : CondFactors ℚ :=
  { APF := 1, FHWF := 1, RPF := 1, GPFRaw := 1, GPFNrm := 1, GPFLiv := 1,
    FVAF := 1, WRPF := 1, hasIncShkDstn := true,
    bilt_hasattr_BoroCnstArt := false, BoroCnstArt := none }

/-- C7 counterexample: even on a stage with an income-shock distribution,
`check_conditions` stores results for only seven conditions and none for
WRIC, so it does not produce a result "for each of the eight conditions". -/
theorem claim_C7_counterexample :
    (conditionsStored condFactorsWithShocks).map Prod.fst
      = ["AIC", "FHWC", "RIC", "GICRaw", "GICNrm", "GICLiv", "FVAC"]
    ∧ "WRIC" ∉ (conditionsStored condFactorsWithShocks).map Prod.fst := by
  refine ⟨rfl, ?_⟩
  decide

/-- A solved stage with an artificial borrowing constraint configured in
`pars` (`BoroCnstArt = 0.0`), with RIC passing (`RPF = 1/2 < 1`) and FHWC
failing (`FHWF = 2 ≥ 1`).  As for every solution this module produces, its
`bilt` namespace has no `BoroCnstArt` attribute, so the source's
`hasattr(soln_crnt.bilt, "BoroCnstArt")` guard is false. -/
def condFactorsArtConfigured : CondFactors ℚ :=
  { APF := 1, FHWF := 2, RPF := 1/2, GPFRaw := 1, GPFNrm := 1, GPFLiv := 1,
    FVAF := 1, WRPF := 1, hasIncShkDstn := false,
    bilt_hasattr_BoroCnstArt := false, BoroCnstArt := some 0 }

/-- C6: evaluating `check_conditions` at a stage with an artificial
borrowing constraint configured and RIC passing: the source still sets
`degenerate` (because FHWC fails and the dead `hasattr(bilt,
"BoroCnstArt")` guard routes it to the no-constraint rule), although the
claimed rule `degenerate ⇔ ¬RIC` would make it false. -/
theorem claim_C6_degenerate_guard_dead :
    condFactorsArtConfigured.BoroCnstArt.isSome = true
    ∧ ((1 : ℚ) / 2 < 1)
    ∧ (checkConditions condFactorsArtConfigured).degenerate := by
  refine ⟨rfl, by norm_num, ?_⟩
  have h2 : ¬ ((2 : ℚ) < 1) := by norm_num
  simp [checkConditions, condFactorsArtConfigured, h2]

/-- C8: income-shock stage setup completes exactly when the
probability-weighted mean of each marginal shock distribution's support is
within tolerance of 1.0; otherwise the mean-one assertion aborts it. -/
theorem claim_C8_mean_one_validation (tol : α)
    (permShkDstn tranShkDstn : DiscreteDstn α) :
    consIndShockSetupValidate tol permShkDstn tranShkDstn = Except.ok ()
      ↔ (|eDot permShkDstn.prbs permShkDstn.vals - 1| < tol
         ∧ |eDot tranShkDstn.prbs tranShkDstn.vals - 1| < tol) := by
  unfold consIndShockSetupValidate assertApproxEqual
  split_ifs with h1 h2 <;>
    simp_all [Except.bind, Bind.bind]

/-- The evaluation environment `build_recursive_facts` sees when invoked
on a terminal-pseudo stage record: `folw` is empty (the preparation step
returns before populating it), so every `_tp1` lookup misses. -/
def terminalRecEnv : RecFactsEnv ℚ :=
  { terminal := true, hNrm_tp1 := none, mNrmMin_tp1 := none,
    MPCmin_tp1 := none, MPCmax_tp1 := none, tranShkMin := 1, permShkMin := 1,
    PermGroFac := 1, Rfree := 1.03, BoroCnstArt := none, RPF := 1 }

/-- C4: evaluating `build_recursive_facts` on a terminal-pseudo record:
the terminal pin `soln_crnt.hNrm_tp1 = -1.0` is written to the solution
object, which the evaluation environment `{E_t, bilt, folw, pars}` does
not include, so the very first formula raises `NameError` instead of
yielding `hNrm = 0.0`. -/
theorem claim_C4_terminal_pin_invisible :
    buildRecursiveFacts terminalRecEnv
      = Except.error "NameError: hNrm_tp1" := rfl

/-- The scenario-B parameter set: CRRA = 2, Rfree = 1.03, DiscFac = 0.96,
LivPrb = 1.0, PermGroFac = 1.0, no artificial borrowing constraint. -/
def parsScenarioB : PFPars ℝ :=
  { CRRA := 2, Rfree := 1.03, DiscFac := 0.96, LivPrb := 1, PermGroFac := 1,
    BoroCnstArt := none }

theorem parsScenarioB_APF_eq :
    APF (fun x y : ℝ => x ^ y) parsScenarioB = Real.sqrt 0.9888 := by
  have hbase : parsScenarioB.Rfree * DiscLivOf parsScenarioB = (0.9888 : ℝ) := by
    norm_num [DiscLivOf, parsScenarioB]
  have hexp : 1 / parsScenarioB.CRRA = (1 / 2 : ℝ) := by
    norm_num [parsScenarioB]
  rw [APF, hbase, hexp, ← Real.sqrt_eq_rpow]

theorem parsScenarioB_APF_lt : APF (fun x y : ℝ => x ^ y) parsScenarioB < 0.9944 := by
  rw [parsScenarioB_APF_eq]
  rw [Real.sqrt_lt' (by norm_num : (0:ℝ) < 0.9944)]
  norm_num

theorem parsScenarioB_APF_gt : (0.9943 : ℝ) < APF (fun x y : ℝ => x ^ y) parsScenarioB := by
  rw [parsScenarioB_APF_eq]
  rw [Real.lt_sqrt (by norm_num : (0:ℝ) ≤ 0.9943)]
  norm_num

/-- C5 counterexample: at the scenario-B parameters the source computes
`APF = √(1.03·0.96) = 0.99438…`, which is not within `0.0004` of the
claimed `0.99499`; and the human wealth built against the terminal
bootstrap (successor `hNrm = 0`) is `(1/1.03)·(1+0) = 0.9708…`, more than
`32` away from the claimed `33.33`. -/
theorem claim_C5_counterexample :
    |APF (fun x y : ℝ => x ^ y) parsScenarioB - 0.99499| > 0.0004
    ∧ |hNrmRecursive parsScenarioB 0 - 33.33| > 32 := by
  constructor
  · have h1 := parsScenarioB_APF_lt
    have h2 := parsScenarioB_APF_gt
    rw [abs_of_neg (by linarith)]
    linarith
  · have h : hNrmRecursive parsScenarioB 0 = 1 / 1.03 * (1 + 0) := rfl
    rw [h, abs_of_neg (by norm_num)]
    norm_num

/-- C5 (amended): for the scenario-B stage solved against the terminal
bootstrap, the built facts satisfy `APF² = 1.03·0.96` with
`0.9943 < APF < 0.9944` (so APF ≈ 0.99438, not 0.99499),
`RPF = APF/1.03 < 1`, `FHWF = 1/1.03 ≈ 0.970874 < 1`, the recursively
built one-stage human wealth `hNrm = (1/1.03)·(1+0) = 100/103`, the
infinite-horizon `hNrmInf = 1/(1−FHWF) = 103/3 ≈ 34.33`, and the
`degenerate` flag is false since RIC and FHWC both hold. -/
theorem claim_C5_scenarioB_facts :
    (APF (fun x y : ℝ => x ^ y) parsScenarioB) ^ 2 = 1.03 * 0.96
    ∧ (0.9943 : ℝ) < APF (fun x y : ℝ => x ^ y) parsScenarioB
    ∧ APF (fun x y : ℝ => x ^ y) parsScenarioB < 0.9944
    ∧ RPF (fun x y : ℝ => x ^ y) parsScenarioB
        = APF (fun x y : ℝ => x ^ y) parsScenarioB / 1.03
    ∧ RPF (fun x y : ℝ => x ^ y) parsScenarioB < 1
    ∧ FHWF parsScenarioB = 1 / 1.03
    ∧ FHWF parsScenarioB < 1
    ∧ hNrmRecursive parsScenarioB 0 = 100 / 103
    ∧ hNrmInfFinite parsScenarioB = 103 / 3
    ∧ ¬ (checkConditions
        { APF := APF (fun x y : ℝ => x ^ y) parsScenarioB,
          FHWF := FHWF parsScenarioB,
          RPF := RPF (fun x y : ℝ => x ^ y) parsScenarioB,
          GPFRaw := GPFRaw (fun x y : ℝ => x ^ y) parsScenarioB,
          GPFNrm := 0, GPFLiv := GPFLiv (fun x y : ℝ => x ^ y) parsScenarioB,
          FVAF := FVAF parsScenarioB, WRPF := 0, hasIncShkDstn := false,
          bilt_hasattr_BoroCnstArt := false,
          BoroCnstArt := none }).degenerate := by
  have hup := parsScenarioB_APF_lt
  have hdn := parsScenarioB_APF_gt
  have hRPF : RPF (fun x y : ℝ => x ^ y) parsScenarioB
      = APF (fun x y : ℝ => x ^ y) parsScenarioB / 1.03 := rfl
  have hRPFlt : RPF (fun x y : ℝ => x ^ y) parsScenarioB < 1 := by
    rw [hRPF]; rw [div_lt_one (by norm_num : (0:ℝ) < 1.03)]; linarith
  have hFHWF : FHWF parsScenarioB = 1 / 1.03 := rfl
  have hFHWFlt : FHWF parsScenarioB < 1 := by rw [hFHWF]; norm_num
  refine ⟨?_, hdn, hup, hRPF, hRPFlt, hFHWF, hFHWFlt, ?_, ?_, ?_⟩
  · rw [parsScenarioB_APF_eq]
    rw [Real.sq_sqrt (by norm_num : (0:ℝ) ≤ 0.9888)]
    norm_num
  · show (1 / 1.03 : ℝ) * (1 + 0) = 100 / 103
    norm_num
  · show (1 : ℝ) / (1 - 1 / 1.03) = 103 / 3
    norm_num
  · simp only [checkConditions]
    simp only [Bool.false_and, Bool.false_eq_true, if_false]
    push_neg
    exact ⟨hRPFlt, hFHWFlt⟩

/-- The EGM source points `(m, c) = (c + a, c)` inherit strictly
increasing market resources and non-decreasing consumption from a
non-decreasing consumption list and a strictly increasing asset grid. -/
theorem egmZipChains (c a : List α) (hlen : c.length = a.length)
    (hc : List.Chain' (· ≤ ·) c) (ha : List.Chain' (· < ·) a) :
    SortedX ((List.zipWith (· + ·) c a).zip c)
    ∧ MonoY ((List.zipWith (· + ·) c a).zip c) := by
  induction c generalizing a with
  | nil => simp [SortedX, MonoY]
  | cons x cs ih =>
    cases a with
    | nil => simp at hlen
    | cons y as =>
      cases cs with
      | nil =>
        cases as with
        | nil => simp [SortedX, MonoY]
        | cons y' as' => simp at hlen
      | cons x' cs' =>
        cases as with
        | nil => simp at hlen
        | cons y' as' =>
          have hlen' : (x' :: cs').length = (y' :: as').length := by
            simpa using hlen
          obtain ⟨hx, hc'⟩ := List.chain'_cons.mp hc
          obtain ⟨hy, ha'⟩ := List.chain'_cons.mp ha
          have IH := ih (y' :: as') hlen' hc' ha'
          simp only [List.zipWith_cons_cons, List.zip_cons_cons] at IH ⊢
          exact ⟨List.chain'_cons.mpr ⟨add_lt_add_of_le_of_lt hx hy, IH.1⟩,
                 List.chain'_cons.mpr ⟨hx, IH.2⟩⟩

/-- If the zipped EGM source points have a first point, it is
`(c₀ + a₀, c₀)` for the heads `c₀`, `a₀` of the two lists. -/
theorem egmZipHead (c a : List α) (y : α × α)
    (hy : y ∈ ((List.zipWith (· + ·) c a).zip c).head?) :
    ∃ c0 a0, c.head? = some c0 ∧ a.head? = some a0 ∧ y = (c0 + a0, c0) := by
  cases c with
  | nil => simp at hy
  | cons c0 cr =>
    cases a with
    | nil => simp at hy
    | cons a0 ar =>
      simp only [List.zipWith_cons_cons, List.zip_cons_cons, List.head?_cons,
        Option.mem_def, Option.some.injEq] at hy
      exact ⟨c0, a0, rfl, rfl, hy.symm⟩

/-- C3: every stage consumption function — the perfect-foresight
piecewise-linear one assembled by `make_cFunc_PF`, and the basic EGM one
built by `interpolating_EGM_solution` with linear interpolation, with or
without an artificial borrowing constraint — is non-decreasing in market
resources and equals exactly 0 at the stage's effective borrowing
constraint (the stage's minimum market resources).  The hypotheses state
that the perfect-foresight kink grid is strictly increasing in `m` with
non-decreasing `c`, that the lower-bound MPC is non-negative, and that the
end-of-period marginal values invert (through the positive, decreasing
CRRA marginal-utility inverse) to a positive non-decreasing consumption
list over the strictly increasing asset grid lying above the natural
borrowing constraint. -/
theorem claim_C3_cFunc_monotone_zero_at_constraint
    (BoroCnstArtPF : Option α) (BoroCnstNatPF MPCmin : α)
    (kinks : List (α × α))
    (hkx : SortedX ((boroCnstMakeCFuncPF BoroCnstArtPF BoroCnstNatPF, 0) :: kinks))
    (hky : MonoY ((boroCnstMakeCFuncPF BoroCnstArtPF BoroCnstNatPF, 0) :: kinks))
    (hMPC : 0 ≤ MPCmin)
    (uP uPP uPinv : α → α) (biltCFunc : α → α) (BoroCnstArt : Option α)
    (BoroCnstNat : α) (vP aGrid : List α)
    (hlen : vP.length = aGrid.length)
    (hcpos : ∀ x ∈ vP, 0 < uPinv x)
    (hcmono : List.Chain' (fun x y => uPinv x ≤ uPinv y) vP)
    (ha : List.Chain' (· < ·) aGrid)
    (halb : ∀ x ∈ aGrid, BoroCnstNat ≤ x) :
    (Monotone (cFuncPF (boroCnstMakeCFuncPF BoroCnstArtPF BoroCnstNatPF)
        MPCmin kinks)
     ∧ cFuncPF (boroCnstMakeCFuncPF BoroCnstArtPF BoroCnstNatPF) MPCmin kinks
         (boroCnstMakeCFuncPF BoroCnstArtPF BoroCnstNatPF) = 0)
    ∧ (Monotone ((interpolatingEGMSolution uP uPP uPinv BoroCnstArt
          (boroCnstEffective BoroCnstArt BoroCnstNat) BoroCnstNat biltCFunc
          makeLinearCFunc vP aGrid).cFunc)
       ∧ (interpolatingEGMSolution uP uPP uPinv BoroCnstArt
          (boroCnstEffective BoroCnstArt BoroCnstNat) BoroCnstNat biltCFunc
          makeLinearCFunc vP aGrid).cFunc
            (boroCnstEffective BoroCnstArt BoroCnstNat) = 0) := by
  constructor
  · -- perfect-foresight part
    set B := boroCnstMakeCFuncPF BoroCnstArtPF BoroCnstNatPF with hB
    set pts : List (α × α) := (B, 0) :: kinks with hpts
    have hne : pts ≠ [] := List.cons_ne_nil _ _
    set lastp := pts.getLast hne with hlast
    have hgrid : makeCFuncPFGrid B MPCmin kinks
        = pts ++ [(lastp.1 + 1, lastp.2 + MPCmin)] := rfl
    have hgx : SortedX (makeCFuncPFGrid B MPCmin kinks) := by
      rw [hgrid]
      refine List.chain'_append.mpr ⟨hkx, List.chain'_singleton _, ?_⟩
      intro x hx y hy
      rw [List.getLast?_eq_getLast pts hne] at hx
      simp only [Option.mem_def, Option.some.injEq] at hx
      simp only [List.head?_cons, Option.mem_def, Option.some.injEq] at hy
      subst hx; subst hy
      exact lt_add_one _
    have hgy : MonoY (makeCFuncPFGrid B MPCmin kinks) := by
      rw [hgrid]
      refine List.chain'_append.mpr ⟨hky, List.chain'_singleton _, ?_⟩
      intro x hx y hy
      rw [List.getLast?_eq_getLast pts hne] at hx
      simp only [Option.mem_def, Option.some.injEq] at hx
      simp only [List.head?_cons, Option.mem_def, Option.some.injEq] at hy
      subst hx; subst hy
      exact le_add_of_nonneg_right hMPC
    refine ⟨linInterp_mono _ hgx hgy, ?_⟩
    have hgrid2 : makeCFuncPFGrid B MPCmin kinks
        = (B, (0:α)) :: (kinks ++ [(lastp.1 + 1, lastp.2 + MPCmin)]) := by
      rw [hgrid, hpts, List.cons_append]
    show linInterp (makeCFuncPFGrid B MPCmin kinks) B = 0
    rw [hgrid2]
    have hgx2 : SortedX ((B, (0:α)) :: (kinks ++ [(lastp.1 + 1, lastp.2 + MPCmin)])) := by
      rw [← hgrid2]; exact hgx
    simpa using linInterp_at_head (B, (0:α)) _ hgx2
  · -- EGM part
    set c := vP.map uPinv with hcdef
    set m := List.zipWith (· + ·) c aGrid with hmdef
    have hc : List.Chain' (· ≤ ·) c := by
      rw [hcdef, List.chain'_map]
      exact hcmono
    have hclen : c.length = aGrid.length := by
      rw [hcdef, List.length_map]; exact hlen
    have hzip := egmZipChains c aGrid hclen hc ha
    -- the unconstrained consumption function interpolates (B, 0) :: (m, c)
    have hheads : ∀ y ∈ (m.zip c).head?,
        BoroCnstNat < y.1 ∧ (0:α) ≤ y.2 := by
      intro y hy
      obtain ⟨c0, a0, hc0, ha0, rfl⟩ := egmZipHead c aGrid y hy
      rw [hcdef, List.head?_map] at hc0
      cases hv : vP.head? with
      | none => rw [hv] at hc0; simp at hc0
      | some v0 =>
        rw [hv] at hc0
        have hc0' : uPinv v0 = c0 := by simpa using hc0
        have hv0mem : v0 ∈ vP := List.mem_of_mem_head? (by simp [hv])
        have ha0mem : a0 ∈ aGrid := List.mem_of_mem_head? (by simp [ha0])
        have h1 : 0 < uPinv v0 := hcpos v0 hv0mem
        have h2 : BoroCnstNat ≤ a0 := halb a0 ha0mem
        subst hc0'
        have h3 : BoroCnstNat < uPinv v0 + a0 := by linarith
        exact ⟨h3, h1.le⟩
    have hptsx : SortedX ((BoroCnstNat, (0:α)) :: m.zip c) :=
      List.chain'_cons'.mpr ⟨fun y hy => (hheads y hy).1, hzip.1⟩
    have hptsy : MonoY ((BoroCnstNat, (0:α)) :: m.zip c) :=
      List.chain'_cons'.mpr ⟨fun y hy => (hheads y hy).2, hzip.2⟩
    have hUncEq : makeLinearCFunc (BoroCnstNat :: m) ((0:α) :: c)
        = linInterp ((BoroCnstNat, (0:α)) :: m.zip c) := by
      rw [makeLinearCFunc, List.zip_cons_cons]
    have hUncMono : Monotone (makeLinearCFunc (BoroCnstNat :: m) ((0:α) :: c)) := by
      rw [hUncEq]; exact linInterp_mono _ hptsx hptsy
    have hUncAtB : makeLinearCFunc (BoroCnstNat :: m) ((0:α) :: c) BoroCnstNat = 0 := by
      rw [hUncEq]
      simpa using linInterp_at_head (BoroCnstNat, (0:α)) _ hptsx
    have hBle : BoroCnstNat ≤ boroCnstEffective BoroCnstArt BoroCnstNat := by
      match BoroCnstArt with
      | none => exact le_refl _
      | some v =>
        show BoroCnstNat ≤ if BoroCnstNat < v then v else BoroCnstNat
        split
        · exact le_of_lt (by assumption)
        · exact le_refl _
    have hUncNonneg :
        0 ≤ makeLinearCFunc (BoroCnstNat :: m) ((0:α) :: c)
          (boroCnstEffective BoroCnstArt BoroCnstNat) := by
      have hmono := hUncMono hBle
      rw [hUncAtB] at hmono
      exact hmono
    match hart : BoroCnstArt with
    | none =>
      have hsol : (interpolatingEGMSolution uP uPP uPinv none
          (boroCnstEffective none BoroCnstNat) BoroCnstNat biltCFunc
          makeLinearCFunc vP aGrid).cFunc
          = makeLinearCFunc (BoroCnstNat :: m) ((0:α) :: c) := rfl
      rw [hsol]
      exact ⟨hUncMono, hUncAtB⟩
    | some v =>
      set mm := boroCnstEffective (some v) BoroCnstNat with hmm
      have hsol : (interpolatingEGMSolution uP uPP uPinv (some v)
          mm BoroCnstNat biltCFunc makeLinearCFunc vP aGrid).cFunc
          = lowerEnvelope (makeLinearCFunc (BoroCnstNat :: m) ((0:α) :: c))
              (linInterp [(mm, (0:α)), (mm + 1, 1)]) := rfl
      have hCnstEq : linInterp [(mm, (0:α)), (mm + 1, 1)] = seg (mm, (0:α)) (mm + 1, 1) := rfl
      have hCnstMono : Monotone (linInterp [(mm, (0:α)), (mm + 1, 1)]) := by
        rw [hCnstEq]
        exact seg_mono _ _ (lt_add_one mm) (by norm_num)
      have hCnstAt : linInterp [(mm, (0:α)), (mm + 1, 1)] mm = 0 := by
        rw [hCnstEq]
        simpa using seg_at_left (mm, (0:α)) (mm + 1, 1)
      rw [hsol]
      constructor
      · exact Monotone.min hUncMono hCnstMono
      · show min (makeLinearCFunc (BoroCnstNat :: m) ((0:α) :: c) mm)
            (linInterp [(mm, (0:α)), (mm + 1, 1)] mm) = 0
        rw [hCnstAt]
        exact min_eq_right hUncNonneg

/-- Witness for C3: the theorem applied at a concrete stage over `ℚ` —
an artificial constraint at 1 tighter than the natural constraint 0, one
successor kink, CRRA marginal-utility inverse `x ↦ 1/x` (CRRA = 1), and a
two-point asset grid with decreasing positive end-of-period marginal
values. -/
theorem claim_C3_witness :
    (SortedX ((boroCnstMakeCFuncPF (some (1:ℚ)) 0, 0) :: [((2:ℚ), 1)])
     ∧ List.Chain' (· < ·) [(1:ℚ), 2])
    ∧ ((Monotone (cFuncPF (boroCnstMakeCFuncPF (some (1:ℚ)) 0) (1/2) [(2, 1)])
        ∧ cFuncPF (boroCnstMakeCFuncPF (some (1:ℚ)) 0) (1/2) [(2, 1)]
            (boroCnstMakeCFuncPF (some (1:ℚ)) 0) = 0)
      ∧ (Monotone ((interpolatingEGMSolution id id (fun x => 1/x)
            (some (1:ℚ)) (boroCnstEffective (some (1:ℚ)) 0) 0 id
            makeLinearCFunc [4, 1] [1, 2]).cFunc)
        ∧ (interpolatingEGMSolution id id (fun x => 1/x) (some (1:ℚ))
            (boroCnstEffective (some (1:ℚ)) 0) 0 id
            makeLinearCFunc [4, 1] [1, 2]).cFunc
              (boroCnstEffective (some (1:ℚ)) 0) = 0)) :=
  ⟨⟨by norm_num [boroCnstMakeCFuncPF, List.chain'_cons, max_def],
    by norm_num [List.chain'_cons]⟩,
    claim_C3_cFunc_monotone_zero_at_constraint (some 1) 0 (1/2) [(2, 1)]
      (by norm_num [boroCnstMakeCFuncPF, List.chain'_cons, max_def])
      (by norm_num [boroCnstMakeCFuncPF, List.chain'_cons, max_def])
      (by norm_num) id id (fun x => 1/x) id (some 1) 0 [4, 1] [1, 2] rfl
      (by norm_num [List.forall_mem_cons])
      (by norm_num [List.chain'_cons])
      (by norm_num [List.chain'_cons])
      (by norm_num [List.forall_mem_cons])⟩

end HARK
